import Mathlib

/-!
Shallow embedding of the AirHub server's weekly payment engine.

Source files embedded here:
* `src/models/Payment.js` (weeklyPaymentSchema, pre-save hook, getWeekBoundaries,
  getWeekNumberAndYear, resolveHourlyRate, createOrUpdateWeeklyPayment);
* `src/models/Benchmark.js` (getHourlyRate, getTier, calculateEarnings);
* `src/models/Bonus.js` (bonusSchema);
* `src/controllers/paymentController.js` (approvePayment, denyPayment,
  markWeekAsPaid, markBonusPaid, updateWeeklyPayment);
* `src/controllers/superAdminController.js` (addExtraBonus);
* `src/controllers/adminController.js` (vetEntry entry aggregation pipeline).

Conventions: JavaScript numbers are modelled as `ℚ`; `Date` values as integer
milliseconds since the Unix epoch (`ℤ`); Mongo object ids as `ℕ`; collections
as `List`s carried in a `DB` state record.  Lean's `/` and `%` on `ℤ` are
`Int.ediv`/`Int.emod`, which agree with the JavaScript operations at every
point where the source applies them (operands are nonnegative there, or the
source uses `Math.floor` of an exact division).
-/

namespace AirHub

/-! ### Calendar arithmetic (JS `Date` UTC accessors) -/

def msPerDay : ℤ := 86400000

/-- JS `date.setUTCHours(0,0,0,0)`: truncate a timestamp to midnight UTC. -/
def truncToMidnight (t : ℤ) : ℤ := msPerDay * (t / msPerDay)

/-- JS `date.getUTCDay()`: 0 = Sunday … 6 = Saturday.  1970-01-01 was a
Thursday, weekday 4. -/
def jsGetUTCDay (t : ℤ) : ℤ := (t / msPerDay + 4) % 7

/-- The proleptic-Gregorian year containing a given day count since the epoch
(JS `date.getUTCFullYear()`), via the standard civil-from-days algorithm. -/
def civilYear (days : ℤ) : ℤ :=
  let z := days + 719468
  let era := z / 146097
  let doe := z - era * 146097
  let yoe := (doe - doe / 1460 + doe / 36524 - doe / 146096) / 365
  let y := yoe + era * 400
  let doy := doe - (365 * yoe + yoe / 4 - yoe / 100)
  let mp := (5 * doy + 2) / 153
  let m := mp + (if mp < 10 then 3 else (-9 : ℤ))
  if m ≤ 2 then y + 1 else y

/-- Day count since the epoch of January 1 of a given year
(JS `Date.UTC(year, 0, 1) / 86400000`), via the days-from-civil algorithm. -/
def jan1Days (y : ℤ) : ℤ :=
  let y1 := y - 1
  let era := y1 / 400
  let yoe := y1 - era * 400
  era * 146097 + (yoe * 365 + yoe / 4 - yoe / 100 + 306) - 719468

structure WeekBounds where
  weekStart : ℤ
  weekEnd : ℤ
deriving DecidableEq

/-- `weeklyPaymentSchema.statics.getWeekBoundaries(date, weekStartDay)`. -/
def getWeekBoundaries (date : ℤ) (weekStartDay : ℤ) : WeekBounds :=
  let d := truncToMidnight date
  let daysBack := (jsGetUTCDay d - weekStartDay + 7) % 7
  let weekStart := d - daysBack * msPerDay
  { weekStart := weekStart, weekEnd := weekStart + 6 * msPerDay + (msPerDay - 1) }

structure WeekNum where
  weekNumber : ℤ
  year : ℤ
deriving DecidableEq

/-- JS `Math.ceil(a / 7)` on an integer numerator. -/
def jsCeilDiv7 (a : ℤ) : ℤ := -((-a) / 7)

/-- `weeklyPaymentSchema.statics.getWeekNumberAndYear(date)`. -/
def getWeekNumberAndYear (date : ℤ) : WeekNum :=
  let d := truncToMidnight date
  let y := civilYear (d / msPerDay)
  let firstDay := jan1Days y
  let pastDays := (d - firstDay * msPerDay) / msPerDay
  { weekNumber := jsCeilDiv7 (pastDays + (firstDay + 4) % 7 + 1), year := y }

/-! ### Benchmark (`src/models/Benchmark.js`) -/

inductive EarningsMode
  | flat
  | score
deriving DecidableEq

inductive Tier
  | excellent
  | good
  | average
  | minimum
  | below
  | flat
deriving DecidableEq

structure Thresholds where
  excellent : ℚ
  good : ℚ
  average : ℚ
  minimum : ℚ
deriving DecidableEq

structure BonusRates where
  excellent : ℚ
  good : ℚ
  average : ℚ
  minimum : ℚ
  below : ℚ
deriving DecidableEq

structure Benchmark where
  payPerHour : Option ℚ
  earningsMode : EarningsMode
  thresholds : Thresholds
  bonusRates : BonusRates
deriving DecidableEq

/-- `bonusRates[tier]`; the `'flat'` key is absent in the schema, JS yields
`undefined` there, modelled as `0` (both are falsy, and the only consumer
guards with `|| 1.0`). -/
def BonusRates.rateFor (r : BonusRates) : Tier → ℚ
  | .excellent => r.excellent
  | .good => r.good
  | .average => r.average
  | .minimum => r.minimum
  | .below => r.below
  | .flat => 0

/-- `benchmark.getHourlyRate()`: `payPerHour` when set and positive, else the
configured default rate (`parseInt(process.env.HOURLY_RATE) || 2000`),
abstracted as `envRate`. -/
def getHourlyRate (b : Benchmark) (envRate : ℚ) : ℚ :=
  match b.payPerHour with
  | some p => if 0 < p then p else envRate
  | none => envRate

/-- `benchmark.getTier(overallScore)`. -/
def getTier (b : Benchmark) (overallScore : ℚ) : Tier :=
  if b.thresholds.excellent ≤ overallScore then .excellent
  else if b.thresholds.good ≤ overallScore then .good
  else if b.thresholds.average ≤ overallScore then .average
  else if b.thresholds.minimum ≤ overallScore then .minimum
  else .below

/-- JS `this.bonusRates[tier] || 1.0`: a zero (falsy) rate falls back to 1. -/
def jsMultiplier (b : Benchmark) (t : Tier) : ℚ :=
  if b.bonusRates.rateFor t = 0 then 1 else b.bonusRates.rateFor t

structure EarningsBreakdown where
  hourlyRate : ℚ
  baseEarnings : ℚ
  multiplier : ℚ
  bonusEarnings : ℚ
  tier : Tier
  finalEarnings : ℚ
deriving DecidableEq

/-- `benchmark.calculateEarnings(hours, overallScore)`. -/
def calculateEarnings (b : Benchmark) (envRate hours overallScore : ℚ) : EarningsBreakdown :=
  let hourlyRate := getHourlyRate b envRate
  let baseEarnings := hours * hourlyRate
  if b.earningsMode = .score then
    let tier := getTier b overallScore
    let multiplier := jsMultiplier b tier
    { hourlyRate := hourlyRate, baseEarnings := baseEarnings, multiplier := multiplier,
      bonusEarnings := baseEarnings * (multiplier - 1), tier := tier,
      finalEarnings := baseEarnings * multiplier }
  else
    { hourlyRate := hourlyRate, baseEarnings := baseEarnings, multiplier := 1,
      bonusEarnings := 0, tier := .flat, finalEarnings := baseEarnings }

/-! ### Persistent records and database state -/

inductive BonusStatus
  | pending
  | merged
  | reset
deriving DecidableEq

inductive PayStatus
  | pending
  | approved
  | paid
  | denied
deriving DecidableEq

inductive PaymentType
  | regular
  | bonus
deriving DecidableEq

structure UserRec where
  id : ℕ
  weekStartDay : ℤ
  extraBonus : ℚ
  extraBonusReason : String
deriving DecidableEq

structure BonusRec where
  id : ℕ
  user : ℕ
  amount : ℚ
  reason : String
  status : BonusStatus
  mergedIntoPayment : Option ℕ
  mergedAt : Option ℤ
  createdBy : ℕ
deriving DecidableEq

structure EntryRec where
  worker : ℕ
  date : ℤ
  time : ℚ
  quality : ℚ
  adminTime : Option ℚ
  adminQuality : Option ℚ
  adminApproved : Bool
deriving DecidableEq

structure PaymentRec where
  id : ℕ
  user : ℕ
  weekStart : ℤ
  weekEnd : ℤ
  weekNumber : ℤ
  year : ℤ
  weekStartDay : ℤ
  totalHours : ℚ
  avgQuality : ℚ
  entryCount : ℕ
  hourlyRate : ℚ
  baseEarnings : ℚ
  performanceMultiplier : ℚ
  bonusEarnings : ℚ
  extraBonus : ℚ
  extraBonusReason : String
  totalEarnings : ℚ
  paymentType : PaymentType
  status : PayStatus
  paid : Bool
  paidDate : Option ℤ
  paidBy : Option ℕ
  approvedBy : Option ℕ
  approvedAt : Option ℤ
  deniedBy : Option ℕ
  deniedAt : Option ℤ
  denialReason : Option String
  adminNotes : Option String
deriving DecidableEq

structure DB where
  users : List UserRec
  bonuses : List BonusRec
  payments : List PaymentRec
  entries : List EntryRec
  benchmark : Option Benchmark
  envRate : ℚ
  now : ℤ
  nextId : ℕ
deriving DecidableEq

inductive ApiErr
  | badRequest (msg : String)
  | notFound (msg : String)
deriving DecidableEq

/-- Schema setter `(v) => Math.round(v * 100) / 100` (JS `Math.round` is
`⌊x + 1/2⌋`, which is Mathlib's `round` on `ℚ`). -/
def round2 (v : ℚ) : ℚ := ((round (v * 100) : ℤ) : ℚ) / 100

/-- `weeklyPaymentSchema.pre('save')`: recompute `totalEarnings` on every
document save. -/
def saveHook (p : PaymentRec) : PaymentRec :=
  { p with totalEarnings :=
      if p.paymentType = .bonus then p.extraBonus
      else p.baseEarnings + p.bonusEarnings + p.extraBonus }

/-- Replace the first element satisfying `pred` (Mongo single-document update
semantics: `findOneAndUpdate`, or a `save()` matching on the unique `_id`). -/
def replaceFirst {α : Type} : List α → (α → Bool) → α → List α
  | [], _, _ => []
  | x :: xs, pred, a => if pred x then a :: xs else x :: replaceFirst xs pred a

def findUser (db : DB) (u : ℕ) : Option UserRec :=
  db.users.find? (fun x => decide (x.id = u))

def findPaymentById (db : DB) (pid : ℕ) : Option PaymentRec :=
  db.payments.find? (fun p => decide (p.id = pid))

/-- Query key of the regular-payment upsert:
`{ user, weekStart, paymentType: 'regular' }`. -/
def regularKey (userId : ℕ) (weekStart : ℤ) (p : PaymentRec) : Bool :=
  decide (p.user = userId ∧ p.weekStart = weekStart ∧ p.paymentType = PaymentType.regular)

/-- `Bonus.find({ user, status: 'pending' })`. -/
def pendingBonuses (db : DB) (userId : ℕ) : List BonusRec :=
  db.bonuses.filter (fun b => decide (b.user = userId ∧ b.status = BonusStatus.pending))

/-- `pendingBonuses.reduce((sum, b) => sum + b.amount, 0)`. -/
def pendingBonusSum (db : DB) (userId : ℕ) : ℚ :=
  ((pendingBonuses db userId).map (·.amount)).sum

/-- `pendingBonuses.map((b) => b.reason).join('; ')`. -/
def joinReasons (l : List BonusRec) : String :=
  String.intercalate "; " (l.map (·.reason))

/-- `Bonus.updateMany({ _id: { $in: ids } }, { status: 'merged',
mergedIntoPayment: paymentId, mergedAt: now })`. -/
def markBonusesMerged (bs : List BonusRec) (ids : List ℕ) (pid : ℕ) (now : ℤ) : List BonusRec :=
  bs.map (fun b =>
    if b.id ∈ ids then
      { b with status := .merged, mergedIntoPayment := some pid, mergedAt := some now }
    else b)

/-- `User.findByIdAndUpdate(userId, { $set: { extraBonus: 0, extraBonusReason: '' } })`. -/
def clearUserBonus (us : List UserRec) (userId : ℕ) : List UserRec :=
  us.map (fun x =>
    if x.id = userId then { x with extraBonus := 0, extraBonusReason := "" } else x)

/-- Schema defaults of `weeklyPaymentSchema`, applied to upsert-inserted and
newly constructed documents (`setDefaultsOnInsert: true`). -/
def freshPayment (pid : ℕ) : PaymentRec :=
  { id := pid, user := 0, weekStart := 0, weekEnd := 0, weekNumber := 0, year := 0,
    weekStartDay := 2, totalHours := 0, avgQuality := 0, entryCount := 0,
    hourlyRate := 2000, baseEarnings := 0, performanceMultiplier := 1, bonusEarnings := 0,
    extraBonus := 0, extraBonusReason := "", totalEarnings := 0,
    paymentType := .regular, status := .pending, paid := false,
    paidDate := none, paidBy := none, approvedBy := none, approvedAt := none,
    deniedBy := none, deniedAt := none, denialReason := none, adminNotes := none }

/-! ### Entry aggregation (`vetEntry` / `generateWeeklyPayments` pipeline) -/

structure EntryStats where
  totalHours : ℚ
  avgQuality : ℚ
  entryCount : ℕ
  avgTime : ℚ
deriving DecidableEq

/-- `$ifNull: ['$adminTime', '$time']`. -/
def effTime (e : EntryRec) : ℚ := e.adminTime.getD e.time

/-- `$ifNull: ['$adminQuality', '$quality']`. -/
def effQuality (e : EntryRec) : ℚ := e.adminQuality.getD e.quality

/-- The `$match` stage: `{ worker, date: { $gte: ws, $lte: we }, adminApproved: true }`. -/
def matchEntry (worker : ℕ) (ws we : ℤ) (e : EntryRec) : Bool :=
  decide (e.worker = worker ∧ ws ≤ e.date ∧ e.date ≤ we ∧ e.adminApproved = true)

/-- One document passing through the `$group` accumulators
(`$sum` of effective time, `$sum` of effective quality for the `$avg`
numerator, document count). -/
def aggStep (worker : ℕ) (ws we : ℤ) (acc : ℚ × ℚ × ℕ) (e : EntryRec) : ℚ × ℚ × ℕ :=
  if matchEntry worker ws we e then (acc.1 + effTime e, acc.2.1 + effQuality e, acc.2.2 + 1)
  else acc

/-- The whole pipeline plus the caller-side default
`stats[0] || { totalHours: 0, avgQuality: 0, entryCount: 0, avgTime: 0 }`
(an empty `$match` result produces no group). -/
def aggregateApprovedEntries (entries : List EntryRec) (worker : ℕ) (ws we : ℤ) : EntryStats :=
  let acc := entries.foldl (aggStep worker ws we) (0, 0, 0)
  if acc.2.2 = 0 then { totalHours := 0, avgQuality := 0, entryCount := 0, avgTime := 0 }
  else
    { totalHours := acc.1, avgQuality := acc.2.1 / (acc.2.2 : ℚ),
      entryCount := acc.2.2, avgTime := acc.1 / (acc.2.2 : ℚ) }

/-! ### Payment engine operations -/

/-- `weeklyPaymentSchema.statics.resolveHourlyRate(benchmark)`. -/
def resolveHourlyRate (benchmark : Option Benchmark) (envRate : ℚ) : ℚ :=
  match benchmark with
  | some b =>
    match b.payPerHour with
    | some p => if 0 < p then p else envRate
    | none => envRate
  | none => envRate

/-- The earnings branch of `createOrUpdateWeeklyPayment`:
`benchmark.calculateEarnings(...)` when a benchmark exists, else the flat
fallback `hours * hourlyRate`. -/
def benchmarkBreakdown (benchmark : Option Benchmark) (envRate : ℚ) (stats : EntryStats) :
    EarningsBreakdown :=
  let hourlyRate := resolveHourlyRate benchmark envRate
  let overallPerformance := stats.avgQuality * (6 / 10) + stats.avgTime * (4 / 10)
  match benchmark with
  | some b => calculateEarnings b envRate stats.totalHours overallPerformance
  | none =>
    { hourlyRate := hourlyRate, baseEarnings := stats.totalHours * hourlyRate,
      multiplier := 1, bonusEarnings := 0, tier := .flat,
      finalEarnings := stats.totalHours * hourlyRate }

/-- The "merge pending `user.extraBonus` into this payment" step of
`createOrUpdateWeeklyPayment`: returns the merged amount, its reason, and the
updated user collection (the owner's scalar bonus cleared exactly when it was
positive). -/
def mergeUserBonus (users : List UserRec) (userId : ℕ) : ℚ × String × List UserRec :=
  match users.find? (fun x => decide (x.id = userId)) with
  | some owner =>
    if 0 < owner.extraBonus then
      (owner.extraBonus, owner.extraBonusReason,
       replaceFirst users (fun x => decide (x.id = userId))
         { owner with extraBonus := 0, extraBonusReason := "" })
    else ((0 : ℚ), "", users)
  | none => ((0 : ℚ), "", users)

/-- `weeklyPaymentSchema.statics.createOrUpdateWeeklyPayment(userId, weekStart,
weekEnd, weekNumber, year, stats, benchmark, weekStartDay)`: the regular-payment
upsert.  Mongoose runs the `totalHours`/`avgQuality` schema setters on the
`$set` paths, and `findOneAndUpdate` does not run the pre-save hook. -/
def createOrUpdateWeeklyPayment (db : DB) (userId : ℕ) (weekStart weekEnd weekNumber year : ℤ)
    (stats : EntryStats) (weekStartDay : ℤ) : DB × PaymentRec :=
  let bd := benchmarkBreakdown db.benchmark db.envRate stats
  let merge := mergeUserBonus db.users userId
  let extraBonus := merge.1
  let totalEarnings := bd.finalEarnings + extraBonus
  let setFields := fun (p : PaymentRec) =>
    { p with
      user := userId, weekStart := weekStart, weekEnd := weekEnd,
      weekNumber := weekNumber, year := year, weekStartDay := weekStartDay,
      paymentType := PaymentType.regular,
      totalHours := round2 stats.totalHours,
      avgQuality := round2 stats.avgQuality,
      entryCount := stats.entryCount,
      hourlyRate := bd.hourlyRate, baseEarnings := bd.baseEarnings,
      performanceMultiplier := bd.multiplier,
      bonusEarnings := bd.bonusEarnings, extraBonus := extraBonus,
      extraBonusReason := merge.2.1, totalEarnings := totalEarnings }
  match db.payments.find? (regularKey userId weekStart) with
  | some p =>
    ({ db with users := merge.2.2,
               payments := replaceFirst db.payments (regularKey userId weekStart) (setFields p) },
     setFields p)
  | none =>
    ({ db with users := merge.2.2,
               payments := db.payments ++ [setFields (freshPayment db.nextId)],
               nextId := db.nextId + 1 },
     setFields (freshPayment db.nextId))

/-- `approvePayment` controller. -/
def approvePayment (db : DB) (paymentId : ℕ) (actor : ℕ) : Except ApiErr (DB × PaymentRec) :=
  match findPaymentById db paymentId with
  | none => .error (.notFound "Payment not found")
  | some payment =>
    if payment.status = .paid then .error (.badRequest "Payment is already paid")
    else if payment.status = .approved then .error (.badRequest "Payment is already approved")
    else
      let p1 := saveHook { payment with
        status := .approved, approvedBy := some actor, approvedAt := some db.now,
        deniedBy := none, deniedAt := none, denialReason := none }
      .ok ({ db with payments := replaceFirst db.payments (fun q => decide (q.id = p1.id)) p1 },
           p1)

/-- `denyPayment` controller. -/
def denyPayment (db : DB) (paymentId : ℕ) (reason : String) (actor : ℕ) :
    Except ApiErr (DB × PaymentRec) :=
  match findPaymentById db paymentId with
  | none => .error (.notFound "Payment not found")
  | some payment =>
    if payment.status = .paid then .error (.badRequest "Cannot deny an already paid payment")
    else
      let p1 := saveHook { payment with
        status := .denied, deniedBy := some actor, deniedAt := some db.now,
        denialReason := some (if reason = "" then "Denied by admin" else reason),
        approvedBy := none, approvedAt := none }
      .ok ({ db with payments := replaceFirst db.payments (fun q => decide (q.id = p1.id)) p1 },
           p1)

/-- Patch accepted by the `updateWeeklyPayment` controller
(`{ status, extraBonus, extraBonusReason, notes }` from the request body). -/
structure PaymentPatch where
  status : Option PayStatus
  extraBonus : Option ℚ
  extraBonusReason : Option String
  notes : Option String
deriving DecidableEq

/-- `updateWeeklyPayment` controller (admin override), ending in `save()`. -/
def updateWeeklyPayment (db : DB) (paymentId : ℕ) (patch : PaymentPatch) :
    Except ApiErr (DB × PaymentRec) :=
  match findPaymentById db paymentId with
  | none => .error (.notFound "Payment not found")
  | some payment =>
    let p := match patch.status with
      | some s => { payment with status := s }
      | none => payment
    let p := match patch.extraBonusReason with
      | some r => if r = "" then p else { p with extraBonusReason := r }
      | none => p
    let p := match patch.notes with
      | some n => { p with adminNotes := some n }
      | none => p
    let p := match patch.extraBonus with
      | some eb => { p with extraBonus := eb, totalEarnings := p.baseEarnings + eb }
      | none => p
    let p1 := saveHook p
    .ok ({ db with payments := replaceFirst db.payments (fun q => decide (q.id = p1.id)) p1 },
         p1)

/-- `markWeekAsPaid` controller: merge all pending bonuses into the week's
regular payment (synthesizing it from a fresh aggregation when absent), mark
the payment paid, mark the drained bonuses merged, clear `user.extraBonus`. -/
def markWeekAsPaid (db : DB) (userId : ℕ) (weekStartStr : ℤ) (actor : ℕ) :
    Except ApiErr (DB × PaymentRec) :=
  match findUser db userId with
  | none => .error (.notFound "User not found")
  | some user =>
    let weekStartDay := user.weekStartDay
    let wb := getWeekBoundaries weekStartStr weekStartDay
    let wn := getWeekNumberAndYear wb.weekStart
    let pend := pendingBonuses db userId
    let extraBonus := (pend.map (·.amount)).sum
    let extraBonusReason := joinReasons pend
    let found := db.payments.find? (regularKey userId wb.weekStart)
    let payment0 :=
      match found with
      | some p =>
        if 0 < extraBonus then
          { p with extraBonus := extraBonus, extraBonusReason := extraBonusReason,
                   totalEarnings := p.baseEarnings + extraBonus }
        else p
      | none =>
        let s := aggregateApprovedEntries db.entries userId wb.weekStart wb.weekEnd
        let hourlyRate :=
          match db.benchmark with
          | some b =>
            match b.payPerHour with
            | some pp => if pp = 0 then db.envRate else pp
            | none => db.envRate
          | none => db.envRate
        let baseEarnings := round2 (s.totalHours * hourlyRate)
        { freshPayment db.nextId with
          user := userId, weekStart := wb.weekStart, weekEnd := wb.weekEnd,
          weekNumber := wn.weekNumber, year := wn.year, weekStartDay := weekStartDay,
          paymentType := .regular,
          totalHours := round2 s.totalHours,
          avgQuality := round2 s.avgQuality,
          entryCount := s.entryCount,
          hourlyRate := hourlyRate, baseEarnings := baseEarnings,
          extraBonus := extraBonus, extraBonusReason := extraBonusReason,
          totalEarnings := baseEarnings + extraBonus,
          status := .pending, paid := false }
    let p1 := saveHook { payment0 with
      status := .paid, paid := true, paidDate := some db.now, paidBy := some actor }
    let payments1 :=
      match found with
      | some _ => replaceFirst db.payments (fun q => decide (q.id = p1.id)) p1
      | none => db.payments ++ [p1]
    let bonuses1 :=
      if 0 < pend.length then markBonusesMerged db.bonuses (pend.map (·.id)) p1.id db.now
      else db.bonuses
    let users1 := if 0 < pend.length then clearUserBonus db.users userId else db.users
    .ok ({ db with
           payments := payments1, bonuses := bonuses1, users := users1,
           nextId := match found with | some _ => db.nextId | none => db.nextId + 1 },
         p1)

/-- Response shape of `markBonusPaid`: Case A returns the merged payment
(`pending: false`), Case B reports the queued total (`pending: true`). -/
inductive BonusPayOutcome
  | merged (payment : PaymentRec)
  | queued (totalBonus : ℚ)
deriving DecidableEq

/-- `findOne(...).sort({ weekStart: -1 })`: the stored document with the
largest `weekStart` among the matches (first one on ties). -/
def latestByWeekStart (ps : List PaymentRec) : Option PaymentRec :=
  ps.foldl
    (fun acc p =>
      match acc with
      | none => some p
      | some q => if q.weekStart < p.weekStart then some p else some q)
    none

/-- `markBonusPaid` controller (`payPendingBonus` in the spec). -/
def markBonusPaid (db : DB) (userId : ℕ) (actor : ℕ) : Except ApiErr (DB × BonusPayOutcome) :=
  match findUser db userId with
  | none => .error (.notFound "User not found")
  | some _ =>
    let pend := pendingBonuses db userId
    if pend.length = 0 then .error (.badRequest "No pending bonuses for this user")
    else
      let totalBonus := (pend.map (·.amount)).sum
      let bonusReasons := joinReasons pend
      let unpaidWeeks := db.payments.filter (fun p =>
        decide (p.user = userId ∧ p.paid ≠ true ∧ p.paymentType = PaymentType.regular))
      match latestByWeekStart unpaidWeeks with
      | some unpaidWeek =>
        let p1 := saveHook { unpaidWeek with
          extraBonus := unpaidWeek.extraBonus + totalBonus,
          extraBonusReason := bonusReasons,
          totalEarnings := unpaidWeek.baseEarnings + (unpaidWeek.extraBonus + totalBonus),
          status := .paid, paid := true, paidDate := some db.now, paidBy := some actor,
          deniedBy := none, deniedAt := none, denialReason := none }
        .ok ({ db with
               payments := replaceFirst db.payments (fun q => decide (q.id = p1.id)) p1,
               bonuses := markBonusesMerged db.bonuses (pend.map (·.id)) p1.id db.now,
               users := clearUserBonus db.users userId },
             .merged p1)
      | none => .ok (db, .queued totalBonus)

/-- `addExtraBonus` controller (superadmin): append a pending `Bonus` document
and increment `user.extraBonus` for dashboard display. -/
def addExtraBonus (db : DB) (userId : ℕ) (amount : ℚ) (reason : String) (actor : ℕ) :
    Except ApiErr (DB × BonusRec) :=
  if amount ≤ 0 then .error (.badRequest "Bonus amount must be greater than 0")
  else if reason = "" then .error (.badRequest "Bonus reason is required")
  else
    match findUser db userId with
    | none => .error (.notFound "User not found")
    | some user =>
      let bonus : BonusRec :=
        { id := db.nextId, user := userId, amount := amount, reason := reason,
          status := .pending, mergedIntoPayment := none, mergedAt := none, createdBy := actor }
      let user1 := { user with extraBonus := user.extraBonus + amount,
                               extraBonusReason := reason }
      .ok ({ db with
             bonuses := db.bonuses ++ [bonus],
             users := replaceFirst db.users (fun x => decide (x.id = userId)) user1,
             nextId := db.nextId + 1 },
           bonus)

/-- The documented `WeeklyPayment` invariant:
`totalEarnings = baseEarnings + bonusEarnings + extraBonus` for regular
records and `totalEarnings = extraBonus` for bonus records. -/
def totalEarningsInv (p : PaymentRec) : Prop :=
  p.totalEarnings =
    if p.paymentType = .bonus then p.extraBonus
    else p.baseEarnings + p.bonusEarnings + p.extraBonus

/-! ### Spec-side formulas (for refinement comparison only)

These two definitions transcribe the SPEC's wording of the week-boundary and
week-number formulas; the claim theorems compare them with the source-derived
`getWeekBoundaries`/`getWeekNumberAndYear` above. -/

/-- Spec wording: "`weekStart` is `date` truncated to midnight UTC, then rolled
back by `(weekday(date) - weekStartDay + 7) mod 7` days." -/
def specWeekStart (date weekStartDay : ℤ) : ℤ :=
  truncToMidnight date - ((jsGetUTCDay date - weekStartDay + 7) % 7) * msPerDay

/-- Spec wording: "`weekNumber = ceil((daysSinceJan1 + dayOfWeekJan1 + 1) / 7)`",
with a genuine ceiling over `ℚ`. -/
def specWeekNumber (weekStart : ℤ) : ℤ :=
  let days := weekStart / msPerDay
  let daysSinceJan1 := days - jan1Days (civilYear days)
  let dayOfWeekJan1 := (jan1Days (civilYear days) + 4) % 7
  ⌈((daysSinceJan1 + dayOfWeekJan1 + 1 : ℤ) : ℚ) / 7⌉

/-! ### Helper lemmas -/

lemma jsCeilDiv7_eq_ceil (x : ℤ) : jsCeilDiv7 x = ⌈((x : ℚ)) / 7⌉ := by
  have h : (⌊(((-x : ℤ) : ℚ)) / (((7 : ℕ)) : ℚ)⌋ : ℤ) = (-x) / 7 :=
    Rat.floor_intCast_div_natCast (-x) 7
  have h2 : ⌈((x : ℚ)) / 7⌉ = -⌊-(((x : ℚ)) / 7)⌋ := by
    rw [← Int.ceil_neg, neg_neg]
  rw [h2, ← neg_div, ← Int.cast_neg]
  rw [show ((7 : ℚ)) = (((7 : ℕ)) : ℚ) by norm_num, h, jsCeilDiv7]

lemma mem_replaceFirst {α : Type} (l : List α) (pred : α → Bool) (a : α) :
    ∀ q ∈ replaceFirst l pred a, q = a ∨ q ∈ l := by
  induction l with
  | nil => intro q hq; simp [replaceFirst] at hq
  | cons x xs ih =>
    intro q hq
    by_cases hx : pred x
    · simp [replaceFirst, hx] at hq
      rcases hq with hq | hq
      · exact Or.inl hq
      · exact Or.inr (List.mem_cons_of_mem _ hq)
    · simp [replaceFirst, hx] at hq
      rcases hq with hq | hq
      · exact Or.inr (by simp [hq])
      · rcases ih q hq with h | h
        · exact Or.inl h
        · exact Or.inr (List.mem_cons_of_mem _ h)

lemma find?_append_of_none {α : Type} (l : List α) (pred : α → Bool) (a : α)
    (hnone : l.find? pred = none) (ha : pred a = true) :
    (l ++ [a]).find? pred = some a := by
  induction l with
  | nil => simpa using List.find?_cons_of_pos ([] : List α) ha
  | cons x xs ih =>
    by_cases hx : pred x
    · rw [List.find?_cons_of_pos _ hx] at hnone; exact absurd hnone (by simp)
    · rw [List.find?_cons_of_neg _ hx] at hnone
      rw [List.cons_append, List.find?_cons_of_neg _ hx]
      exact ih hnone

lemma find?_replaceFirst_by_id (ps : List PaymentRec) (pred : PaymentRec → Bool)
    (p p1 : PaymentRec) (hnd : (ps.map PaymentRec.id).Nodup)
    (hf : ps.find? pred = some p) (hid : p1.id = p.id) (hp1 : pred p1 = true) :
    (replaceFirst ps (fun q => decide (q.id = p1.id)) p1).find? pred = some p1 := by
  induction ps with
  | nil => simp at hf
  | cons x xs ih =>
    by_cases hx : pred x
    · have hxp : x = p := by
        rw [List.find?_cons_of_pos _ hx] at hf
        exact Option.some.inj hf
      subst hxp
      have hxid : decide (x.id = p1.id) = true := by simp [hid]
      have hrw : replaceFirst (x :: xs) (fun q => decide (q.id = p1.id)) p1 = p1 :: xs := by
        simp [replaceFirst, hxid]
      rw [hrw]
      exact List.find?_cons_of_pos _ hp1
    · have hf' : xs.find? pred = some p := by rwa [List.find?_cons_of_neg _ hx] at hf
      have hpmem : p ∈ xs := List.mem_of_find?_eq_some hf'
      have hxid : decide (x.id = p1.id) = false := by
        simp only [decide_eq_false_iff_not]
        rw [hid]
        intro hcontra
        exact (List.nodup_cons.mp hnd).1 (hcontra ▸ List.mem_map_of_mem _ hpmem)
      have hrw : replaceFirst (x :: xs) (fun q => decide (q.id = p1.id)) p1 =
          x :: replaceFirst xs (fun q => decide (q.id = p1.id)) p1 := by
        simp [replaceFirst, hxid]
      rw [hrw, List.find?_cons_of_neg _ hx]
      exact ih (List.nodup_cons.mp hnd).2 hf'

/-- After `markBonusesMerged` over exactly the ids of the pending bonuses,
no pending bonus of that user remains. -/
lemma pending_filter_after_merge (bs : List BonusRec) (u pid : ℕ) (now : ℤ) :
    (markBonusesMerged bs
        ((bs.filter (fun b => decide (b.user = u ∧ b.status = BonusStatus.pending))).map (·.id))
        pid now).filter
      (fun b => decide (b.user = u ∧ b.status = BonusStatus.pending)) = [] := by
  apply List.filter_eq_nil_iff.mpr
  intro b' hb'
  rw [markBonusesMerged] at hb'
  rcases List.mem_map.mp hb' with ⟨b, hb, hmap⟩
  by_cases hc : b.id ∈ (bs.filter
      (fun b => decide (b.user = u ∧ b.status = BonusStatus.pending))).map (·.id)
  · rw [if_pos hc] at hmap
    subst hmap
    simp
  · rw [if_neg hc] at hmap
    subst hmap
    intro hpend
    apply hc
    have hpend' : b.user = u ∧ b.status = BonusStatus.pending := of_decide_eq_true hpend
    have hmemf : b ∈ bs.filter (fun b => decide (b.user = u ∧ b.status = BonusStatus.pending)) :=
      List.mem_filter.mpr ⟨hb, by simp [hpend'.1, hpend'.2]⟩
    exact List.mem_map_of_mem (·.id) hmemf

/-- Every pending bonus of the user gets an image record that is merged and
linked to the given payment. -/
lemma merged_image_exists (bs : List BonusRec) (u pid : ℕ) (now : ℤ) :
    ∀ b ∈ bs, b.user = u → b.status = .pending →
      ∃ b' ∈ markBonusesMerged bs
          ((bs.filter (fun b => decide (b.user = u ∧ b.status = BonusStatus.pending))).map (·.id))
          pid now,
        b'.id = b.id ∧ b'.status = .merged ∧ b'.mergedIntoPayment = some pid
          ∧ b'.mergedAt = some now := by
  intro b hb huser hstatus
  have hmemf : b ∈ bs.filter (fun b => decide (b.user = u ∧ b.status = BonusStatus.pending)) :=
    List.mem_filter.mpr ⟨hb, by simp [huser, hstatus]⟩
  have hidmem : b.id ∈ (bs.filter
      (fun b => decide (b.user = u ∧ b.status = BonusStatus.pending))).map (·.id) :=
    List.mem_map_of_mem (·.id) hmemf
  refine ⟨{ b with status := .merged, mergedIntoPayment := some pid, mergedAt := some now },
    ?_, by simp, by simp, by simp, by simp⟩
  rw [markBonusesMerged]
  have himg : (fun b0 : BonusRec =>
      if b0.id ∈ (bs.filter (fun b => decide (b.user = u ∧ b.status = BonusStatus.pending))).map
          (·.id) then
        { b0 with status := BonusStatus.merged, mergedIntoPayment := some pid,
                  mergedAt := some now }
      else b0) b =
      { b with status := BonusStatus.merged, mergedIntoPayment := some pid,
               mergedAt := some now } := by
    exact if_pos hidmem
  rw [← himg]
  exact List.mem_map_of_mem _ hb

/-- `saveHook` output always satisfies the totalEarnings invariant. -/
lemma totalEarningsInv_saveHook (p : PaymentRec) : totalEarningsInv (saveHook p) := by
  by_cases h : p.paymentType = .bonus
  · simp [saveHook, totalEarningsInv, h]
  · simp [saveHook, totalEarningsInv, h]

/-- `calculateEarnings` always satisfies `final = base + bonus`. -/
lemma calculateEarnings_final (b : Benchmark) (envRate hours score : ℚ) :
    (calculateEarnings b envRate hours score).finalEarnings =
      (calculateEarnings b envRate hours score).baseEarnings +
        (calculateEarnings b envRate hours score).bonusEarnings := by
  by_cases h : b.earningsMode = .score
  · simp only [calculateEarnings, h, if_true]
    ring
  · simp [calculateEarnings, h]

/-! ### C5 — week boundaries and week numbering -/

/-- C5 (confirmed): for every date and weekStartDay in [0,6],
`getWeekBoundaries` returns `weekStart` = the date truncated to midnight UTC
rolled back by `(weekday(date) - weekStartDay + 7) mod 7` days, and `weekEnd` =
`weekStart + 6 days` at 23:59:59.999 UTC; `getWeekNumberAndYear(weekStart)`
returns `weekNumber = ceil((daysSinceJan1 + dayOfWeekJan1 + 1)/7)` and the UTC
year of `weekStart`; and any date falling inside the resulting window yields
the identical boundaries. -/
theorem getWeekBoundaries_spec (date w : ℤ) (h0 : 0 ≤ w) (h7 : w < 7) :
    (getWeekBoundaries date w).weekStart = specWeekStart date w
    ∧ (getWeekBoundaries date w).weekEnd =
        (getWeekBoundaries date w).weekStart + 6 * msPerDay + (msPerDay - 1)
    ∧ (getWeekNumberAndYear (getWeekBoundaries date w).weekStart).weekNumber =
        specWeekNumber (getWeekBoundaries date w).weekStart
    ∧ (getWeekNumberAndYear (getWeekBoundaries date w).weekStart).year =
        civilYear ((getWeekBoundaries date w).weekStart / msPerDay)
    ∧ ∀ d2 : ℤ, (getWeekBoundaries date w).weekStart ≤ d2 →
        d2 ≤ (getWeekBoundaries date w).weekEnd →
        getWeekBoundaries d2 w = getWeekBoundaries date w := by
  refine ⟨?_, ?_, ?_, ?_, ?_⟩
  · simp only [getWeekBoundaries, specWeekStart, truncToMidnight, jsGetUTCDay, msPerDay]
    omega
  · simp [getWeekBoundaries]
  · generalize hws : (getWeekBoundaries date w).weekStart = ws
    have ht : truncToMidnight ws / msPerDay = ws / msPerDay := by
      simp only [truncToMidnight, msPerDay]
      omega
    simp only [getWeekNumberAndYear, specWeekNumber, ht, jsCeilDiv7_eq_ceil]
    congr 1
    have harg : (truncToMidnight ws - jan1Days (civilYear (ws / msPerDay)) * msPerDay) /
        msPerDay = ws / msPerDay - jan1Days (civilYear (ws / msPerDay)) := by
      simp only [truncToMidnight, msPerDay]
      omega
    rw [harg]
  · generalize hws : (getWeekBoundaries date w).weekStart = ws
    have ht : truncToMidnight ws / msPerDay = ws / msPerDay := by
      simp only [truncToMidnight, msPerDay]
      omega
    simp only [getWeekNumberAndYear, ht]
  · intro d2 h1 h2
    simp only [getWeekBoundaries, truncToMidnight, jsGetUTCDay, msPerDay,
      WeekBounds.mk.injEq] at h1 h2 ⊢
    omega

/-- C5 witness: the theorem applied at 2024-05-15 10:00 UTC with a Tuesday
week start; 2024-05-16 18:30 UTC falls in the same logical week. -/
theorem getWeekBoundaries_spec_witness :
    getWeekBoundaries 1715884200000 2 = getWeekBoundaries 1715767200000 2
    ∧ (getWeekBoundaries 1715767200000 2).weekStart = specWeekStart 1715767200000 2 := by
  have h := getWeekBoundaries_spec 1715767200000 2 (by decide) (by decide)
  exact ⟨h.2.2.2.2 1715884200000 (by decide) (by decide), h.1⟩

/-! ### C3 — earnings calculation -/

/-- The benchmark exhibiting the falsy-zero bonus-rate fallback: `score`
mode with `bonusRates.minimum = 0`. -/
def zeroRateBenchmark : Benchmark :=
  { payPerHour := some 100, earningsMode := .score,
    thresholds := { excellent := 80, good := 70, average := 60, minimum := 50 },
    bonusRates := { excellent := 1.2, good := 1.1, average := 1, minimum := 0, below := 0.8 } }

/-- C3 counterexample: with `bonusRates.minimum = 0` and a score in the
`minimum` tier, the code's `bonusRates[tier] || 1.0` fallback yields
multiplier 1, not `bonusRates[tier] = 0` as the claim states. -/
theorem calculateEarnings_claim_counterexample :
    getTier zeroRateBenchmark 55 = .minimum
    ∧ zeroRateBenchmark.bonusRates.rateFor (getTier zeroRateBenchmark 55) = 0
    ∧ (calculateEarnings zeroRateBenchmark 2000 1 55).multiplier = 1
    ∧ (calculateEarnings zeroRateBenchmark 2000 1 55).multiplier ≠
        zeroRateBenchmark.bonusRates.rateFor (getTier zeroRateBenchmark 55) := by
  refine ⟨?_, ?_, ?_, ?_⟩ <;>
    norm_num [zeroRateBenchmark, getTier, calculateEarnings, jsMultiplier, getHourlyRate,
      BonusRates.rateFor]

/-- C3 (amended): flat mode returns `{base = h*rate, multiplier = 1,
tier = 'flat', bonus = 0, final = base}`; score mode returns
`multiplier = bonusRates[tier]` when that rate is nonzero and `1.0` otherwise
(the JS `|| 1.0` fallback), with `bonus = base*(multiplier-1)` and
`final = base*multiplier`; the tier is the first of
excellent/good/average/minimum whose threshold the score meets or exceeds,
else `below`. -/
theorem calculateEarnings_spec (b : Benchmark) (envRate hours score : ℚ) :
    (b.earningsMode = .flat →
      calculateEarnings b envRate hours score =
        { hourlyRate := getHourlyRate b envRate,
          baseEarnings := hours * getHourlyRate b envRate,
          multiplier := 1, bonusEarnings := 0, tier := .flat,
          finalEarnings := hours * getHourlyRate b envRate })
    ∧ (b.earningsMode = .score →
      calculateEarnings b envRate hours score =
        { hourlyRate := getHourlyRate b envRate,
          baseEarnings := hours * getHourlyRate b envRate,
          multiplier := jsMultiplier b (getTier b score),
          bonusEarnings :=
            hours * getHourlyRate b envRate * (jsMultiplier b (getTier b score) - 1),
          tier := getTier b score,
          finalEarnings := hours * getHourlyRate b envRate * jsMultiplier b (getTier b score) })
    ∧ (getTier b score = .excellent ↔ b.thresholds.excellent ≤ score)
    ∧ (getTier b score = .good ↔
        score < b.thresholds.excellent ∧ b.thresholds.good ≤ score)
    ∧ (getTier b score = .average ↔
        score < b.thresholds.excellent ∧ score < b.thresholds.good
          ∧ b.thresholds.average ≤ score)
    ∧ (getTier b score = .minimum ↔
        score < b.thresholds.excellent ∧ score < b.thresholds.good
          ∧ score < b.thresholds.average ∧ b.thresholds.minimum ≤ score)
    ∧ (getTier b score = .below ↔
        score < b.thresholds.excellent ∧ score < b.thresholds.good
          ∧ score < b.thresholds.average ∧ score < b.thresholds.minimum) := by
  refine ⟨?_, ?_, ?_, ?_, ?_, ?_, ?_⟩
  · intro h
    simp [calculateEarnings, h]
  · intro h
    simp [calculateEarnings, h]
  all_goals
    unfold getTier
    split_ifs with h1 h2 h3 h4 <;> simp_all [not_le]

/-- C3 witness: the amended theorem applied at the spec §8 example benchmarks
(flat mode, 10 hours, rate 500; score mode, 8 hours, rate 1000, score 85). -/
theorem calculateEarnings_spec_witness :
    (calculateEarnings
        { payPerHour := some 500, earningsMode := .flat,
          thresholds := { excellent := 80, good := 70, average := 60, minimum := 50 },
          bonusRates := { excellent := 1.2, good := 1.1, average := 1, minimum := 0.9,
                          below := 0.8 } } 2000 10 55).finalEarnings = 5000
    ∧ (calculateEarnings
        { payPerHour := some 1000, earningsMode := .score,
          thresholds := { excellent := 80, good := 70, average := 60, minimum := 50 },
          bonusRates := { excellent := 1.2, good := 1.1, average := 1, minimum := 0.9,
                          below := 0.8 } } 2000 8 85).finalEarnings = 9600 := by
  constructor
  · have h := (calculateEarnings_spec
      { payPerHour := some 500, earningsMode := .flat,
        thresholds := { excellent := 80, good := 70, average := 60, minimum := 50 },
        bonusRates := { excellent := 1.2, good := 1.1, average := 1, minimum := 0.9,
                        below := 0.8 } } 2000 10 55).1 rfl
    rw [h]
    norm_num [getHourlyRate]
  · have h := (calculateEarnings_spec
      { payPerHour := some 1000, earningsMode := .score,
        thresholds := { excellent := 80, good := 70, average := 60, minimum := 50 },
        bonusRates := { excellent := 1.2, good := 1.1, average := 1, minimum := 0.9,
                        below := 0.8 } } 2000 8 85).2.1 rfl
    rw [h]
    norm_num [getHourlyRate, jsMultiplier, BonusRates.rateFor, getTier]

/-! ### C6 — approved-entry aggregation -/

lemma aggStep_foldl (worker : ℕ) (ws we : ℤ) (l : List EntryRec) :
    ∀ (a b : ℚ) (n : ℕ),
      l.foldl (aggStep worker ws we) (a, b, n) =
        (a + ((l.filter (matchEntry worker ws we)).map effTime).sum,
         b + ((l.filter (matchEntry worker ws we)).map effQuality).sum,
         n + (l.filter (matchEntry worker ws we)).length) := by
  induction l with
  | nil => intro a b n; simp
  | cons e t ih =>
    intro a b n
    by_cases hm : matchEntry worker ws we e
    · simp only [List.foldl_cons, aggStep, hm, if_true, ih, List.filter_cons, List.map_cons,
        List.sum_cons, List.length_cons, Prod.mk.injEq]
      refine ⟨by ring, by ring, by omega⟩
    · simp only [List.foldl_cons, aggStep, hm, if_false, ih, List.filter_cons, Bool.false_eq_true,
        ite_false]

/-- C6 (confirmed): the approved-entry aggregation includes exactly the
admin-approved entries of the worker dated within the inclusive window; each
contributes effective hours `adminTime ?? time` and effective quality
`adminQuality ?? quality`; `totalHours` is the sum of effective hours,
`avgQuality`/`avgTime` the means, `entryCount` the number included; an empty
window yields the all-zero stats object rather than an error. -/
theorem aggregateApprovedEntries_spec (entries : List EntryRec) (worker : ℕ) (ws we : ℤ) :
    (∀ e, e ∈ entries.filter (matchEntry worker ws we) ↔
      (e ∈ entries ∧ e.adminApproved = true ∧ e.worker = worker
        ∧ ws ≤ e.date ∧ e.date ≤ we))
    ∧ (aggregateApprovedEntries entries worker ws we).entryCount =
        (entries.filter (matchEntry worker ws we)).length
    ∧ (aggregateApprovedEntries entries worker ws we).totalHours =
        ((entries.filter (matchEntry worker ws we)).map effTime).sum
    ∧ (aggregateApprovedEntries entries worker ws we).avgQuality =
        (if (entries.filter (matchEntry worker ws we)).length = 0 then 0
         else ((entries.filter (matchEntry worker ws we)).map effQuality).sum /
           ((entries.filter (matchEntry worker ws we)).length : ℚ))
    ∧ (aggregateApprovedEntries entries worker ws we).avgTime =
        (if (entries.filter (matchEntry worker ws we)).length = 0 then 0
         else ((entries.filter (matchEntry worker ws we)).map effTime).sum /
           ((entries.filter (matchEntry worker ws we)).length : ℚ))
    ∧ (entries.filter (matchEntry worker ws we) = [] →
        aggregateApprovedEntries entries worker ws we =
          { totalHours := 0, avgQuality := 0, entryCount := 0, avgTime := 0 }) := by
  have hfold := aggStep_foldl worker ws we entries 0 0 0
  simp only [Prod.mk_zero_zero, zero_add, Nat.zero_add] at hfold
  have hmem : ∀ e, e ∈ entries.filter (matchEntry worker ws we) ↔
      (e ∈ entries ∧ e.adminApproved = true ∧ e.worker = worker
        ∧ ws ≤ e.date ∧ e.date ≤ we) := by
    intro e
    rw [List.mem_filter]
    unfold matchEntry
    constructor
    · rintro ⟨hmem, hdec⟩
      have h := of_decide_eq_true hdec
      exact ⟨hmem, h.2.2.2, h.1, h.2.1, h.2.2.1⟩
    · rintro ⟨hmem, happ, hw, h1, h2⟩
      exact ⟨hmem, decide_eq_true (by exact ⟨hw, h1, h2, happ⟩)⟩
  by_cases hlen : (entries.filter (matchEntry worker ws we)).length = 0
  · have hnil : entries.filter (matchEntry worker ws we) = [] :=
      List.length_eq_zero.mp hlen
    refine ⟨hmem, ?_, ?_, ?_, ?_, ?_⟩ <;>
      simp [aggregateApprovedEntries, hfold, hnil]
  · refine ⟨hmem, ?_, ?_, ?_, ?_, ?_⟩
    · simp [aggregateApprovedEntries, hfold, hlen]
    · simp [aggregateApprovedEntries, hfold, hlen]
    · simp [aggregateApprovedEntries, hfold, hlen]
    · simp [aggregateApprovedEntries, hfold, hlen]
    · intro hnil
      exact absurd (by simp [hnil]) hlen

/-! ### C7 — approve / deny status transitions -/

/-- C7 (confirmed): `approvePayment` fails with an invalid-state error when the
payment is already `paid` or already `approved` and otherwise sets
`status='approved'` clearing the denial fields; `denyPayment` fails only when
the payment is `paid` and otherwise sets `status='denied'` recording reason and
actor and clearing the approval fields; in particular a `denied` payment can be
approved, a `paid` payment rejects both actions, and a failing call returns
before any mutation. -/
theorem approveDeny_spec (db : DB) (pid actor : ℕ) (reason : String) (p : PaymentRec)
    (hp : findPaymentById db pid = some p) :
    (p.status = .paid →
      approvePayment db pid actor = .error (.badRequest "Payment is already paid")
      ∧ denyPayment db pid reason actor =
          .error (.badRequest "Cannot deny an already paid payment"))
    ∧ (p.status = .approved →
      approvePayment db pid actor = .error (.badRequest "Payment is already approved"))
    ∧ (p.status ≠ .paid → p.status ≠ .approved →
      ∃ db' p', approvePayment db pid actor = .ok (db', p')
        ∧ p'.status = .approved ∧ p'.approvedBy = some actor
        ∧ p'.deniedBy = none ∧ p'.deniedAt = none ∧ p'.denialReason = none
        ∧ p'.id = p.id)
    ∧ (p.status ≠ .paid →
      ∃ db' p', denyPayment db pid reason actor = .ok (db', p')
        ∧ p'.status = .denied ∧ p'.deniedBy = some actor
        ∧ p'.denialReason = some (if reason = "" then "Denied by admin" else reason)
        ∧ p'.approvedBy = none ∧ p'.approvedAt = none
        ∧ p'.id = p.id) := by
  refine ⟨?_, ?_, ?_, ?_⟩
  · intro hstat
    constructor
    · simp [approvePayment, hp, hstat]
    · simp [denyPayment, hp, hstat]
  · intro hstat
    simp [approvePayment, hp, hstat]
  · intro h1 h2
    simp only [approvePayment, hp, h1, h2, if_false]
    refine ⟨_, _, rfl, ?_, ?_, ?_, ?_, ?_, ?_⟩ <;> simp [saveHook]
  · intro h1
    simp only [denyPayment, hp, h1, if_false]
    refine ⟨_, _, rfl, ?_, ?_, ?_, ?_, ?_, ?_⟩ <;> simp [saveHook]

/-- Concrete three-payment store for the C7 witness: one paid, one approved,
one denied record. -/
def statusDB : DB :=
  { users := [], bonuses := [], entries := [], benchmark := none,
    envRate := 2000, now := 50, nextId := 20,
    payments :=
      [ { freshPayment 1 with user := 1, status := .paid, paid := true },
        { freshPayment 2 with user := 1, status := .approved },
        { freshPayment 3 with
          user := 1, status := .denied, deniedBy := some 9,
          denialReason := some "late" } ] }

/-- C7 witness: on the concrete store, approving the paid record fails,
approving the approved record fails, and approving the denied record
succeeds. -/
theorem approveDeny_spec_witness :
    approvePayment statusDB 1 9 = .error (.badRequest "Payment is already paid")
    ∧ approvePayment statusDB 2 9 = .error (.badRequest "Payment is already approved")
    ∧ ∃ db' p', approvePayment statusDB 3 9 = .ok (db', p')
      ∧ p'.status = .approved ∧ p'.approvedBy = some 9
      ∧ p'.deniedBy = none ∧ p'.deniedAt = none ∧ p'.denialReason = none
      ∧ p'.id = 3 := by
  refine ⟨?_, ?_, ?_⟩
  · exact ((approveDeny_spec statusDB 1 9 ""
      { freshPayment 1 with user := 1, status := .paid, paid := true } rfl).1 rfl).1
  · exact (approveDeny_spec statusDB 2 9 ""
      { freshPayment 2 with user := 1, status := .approved } rfl).2.1 rfl
  · exact (approveDeny_spec statusDB 3 9 ""
      { freshPayment 3 with
        user := 1, status := .denied, deniedBy := some 9,
        denialReason := some "late" } rfl).2.2.1
      (by decide) (by decide)

/-! ### C8 — regular upsert never touches payout fields -/

/-- C8 (confirmed): when the regular upsert targets an existing record, the
resulting record keeps `status`, `paid`, `paidDate`, `paidBy` (and the other
payout-action fields) exactly as they were, whatever state the record is in,
and the payment collection changes only by that single record. -/
theorem createOrUpdate_frame (db : DB) (userId : ℕ) (ws we wn yr : ℤ)
    (stats : EntryStats) (wsd : ℤ) (p : PaymentRec)
    (hfind : db.payments.find? (regularKey userId ws) = some p) :
    (createOrUpdateWeeklyPayment db userId ws we wn yr stats wsd).2.status = p.status
    ∧ (createOrUpdateWeeklyPayment db userId ws we wn yr stats wsd).2.paid = p.paid
    ∧ (createOrUpdateWeeklyPayment db userId ws we wn yr stats wsd).2.paidDate = p.paidDate
    ∧ (createOrUpdateWeeklyPayment db userId ws we wn yr stats wsd).2.paidBy = p.paidBy
    ∧ (createOrUpdateWeeklyPayment db userId ws we wn yr stats wsd).2.approvedBy = p.approvedBy
    ∧ (createOrUpdateWeeklyPayment db userId ws we wn yr stats wsd).2.approvedAt = p.approvedAt
    ∧ (createOrUpdateWeeklyPayment db userId ws we wn yr stats wsd).2.deniedBy = p.deniedBy
    ∧ (createOrUpdateWeeklyPayment db userId ws we wn yr stats wsd).2.deniedAt = p.deniedAt
    ∧ (createOrUpdateWeeklyPayment db userId ws we wn yr stats wsd).2.denialReason =
        p.denialReason
    ∧ (createOrUpdateWeeklyPayment db userId ws we wn yr stats wsd).2.id = p.id
    ∧ ∀ q ∈ (createOrUpdateWeeklyPayment db userId ws we wn yr stats wsd).1.payments,
        q = (createOrUpdateWeeklyPayment db userId ws we wn yr stats wsd).2 ∨
          q ∈ db.payments := by
  unfold createOrUpdateWeeklyPayment
  rw [hfind]
  refine ⟨rfl, rfl, rfl, rfl, rfl, rfl, rfl, rfl, rfl, rfl, ?_⟩
  intro q hq
  exact mem_replaceFirst _ _ _ q hq

/-- Concrete store for the C8 witness: a denied, unpaid regular payment. -/
def frameDB : DB :=
  { users := [⟨1, 2, 0, ""⟩], bonuses := [], entries := [], benchmark := none,
    envRate := 2000, now := 60, nextId := 30,
    payments := [ { freshPayment 7 with
                    user := 1, weekStart := 1715644800000, status := .denied,
                    deniedBy := some 9, denialReason := some "check hours" } ] }

/-- C8 witness: the frame theorem applied on the concrete store. -/
theorem createOrUpdate_frame_witness :
    (createOrUpdateWeeklyPayment frameDB 1 1715644800000 1716249599999 20 2024
        { totalHours := 8, avgQuality := 90, entryCount := 1, avgTime := 8 } 2).2.status =
      PayStatus.denied
    ∧ (createOrUpdateWeeklyPayment frameDB 1 1715644800000 1716249599999 20 2024
        { totalHours := 8, avgQuality := 90, entryCount := 1, avgTime := 8 } 2).2.paid = false
    ∧ (createOrUpdateWeeklyPayment frameDB 1 1715644800000 1716249599999 20 2024
        { totalHours := 8, avgQuality := 90, entryCount := 1, avgTime := 8 } 2).2.paidDate =
      none := by
  have h := createOrUpdate_frame frameDB 1 1715644800000 1716249599999 20 2024
    { totalHours := 8, avgQuality := 90, entryCount := 1, avgTime := 8 } 2
    { freshPayment 7 with
      user := 1, weekStart := 1715644800000, status := .denied,
      deniedBy := some 9, denialReason := some "check hours" } rfl
  exact ⟨h.1, h.2.1, h.2.2.1⟩

/-! ### C4 — the totalEarnings invariant is preserved by every operation -/

lemma benchmarkBreakdown_final (bm : Option Benchmark) (er : ℚ) (st : EntryStats) :
    (benchmarkBreakdown bm er st).finalEarnings =
      (benchmarkBreakdown bm er st).baseEarnings +
        (benchmarkBreakdown bm er st).bonusEarnings := by
  cases bm with
  | none => simp [benchmarkBreakdown]
  | some b =>
    simp only [benchmarkBreakdown]
    exact calculateEarnings_final b er st.totalHours _

lemma upserted_inv (db : DB) (userId : ℕ) (ws we wn yr : ℤ) (stats : EntryStats) (wsd : ℤ) :
    totalEarningsInv (createOrUpdateWeeklyPayment db userId ws we wn yr stats wsd).2 := by
  have hfb := benchmarkBreakdown_final db.benchmark db.envRate stats
  rcases hf : db.payments.find? (regularKey userId ws) with _ | p <;>
    simp only [createOrUpdateWeeklyPayment, hf, totalEarningsInv] <;>
    rw [hfb] <;> simp <;> ring

lemma upserted_payments_shape (db : DB) (userId : ℕ) (ws we wn yr : ℤ)
    (stats : EntryStats) (wsd : ℤ) :
    (createOrUpdateWeeklyPayment db userId ws we wn yr stats wsd).1.payments =
      replaceFirst db.payments (regularKey userId ws)
        (createOrUpdateWeeklyPayment db userId ws we wn yr stats wsd).2
    ∨ (createOrUpdateWeeklyPayment db userId ws we wn yr stats wsd).1.payments =
        db.payments ++ [(createOrUpdateWeeklyPayment db userId ws we wn yr stats wsd).2] := by
  rcases hf : db.payments.find? (regularKey userId ws) with _ | p
  · right
    simp only [createOrUpdateWeeklyPayment, hf]
  · left
    simp only [createOrUpdateWeeklyPayment, hf]

/-- C4 (confirmed): starting from a store in which every payment satisfies the
invariant (`totalEarnings = base + bonusEarnings + extraBonus` for regular
records, `totalEarnings = extraBonus` for bonus records), each completed
operation — the regular upsert, `markWeekAsPaid`, approve, deny, and the admin
update — leaves every persisted payment satisfying it. -/
theorem totalEarnings_invariant (db : DB)
    (hinv : ∀ q ∈ db.payments, totalEarningsInv q) :
    (∀ userId ws we wn yr stats wsd,
      ∀ q ∈ (createOrUpdateWeeklyPayment db userId ws we wn yr stats wsd).1.payments,
        totalEarningsInv q)
    ∧ (∀ userId t actor db' pr, markWeekAsPaid db userId t actor = .ok (db', pr) →
        ∀ q ∈ db'.payments, totalEarningsInv q)
    ∧ (∀ pid actor db' pr, approvePayment db pid actor = .ok (db', pr) →
        ∀ q ∈ db'.payments, totalEarningsInv q)
    ∧ (∀ pid reason actor db' pr, denyPayment db pid reason actor = .ok (db', pr) →
        ∀ q ∈ db'.payments, totalEarningsInv q)
    ∧ (∀ pid patch db' pr, updateWeeklyPayment db pid patch = .ok (db', pr) →
        ∀ q ∈ db'.payments, totalEarningsInv q) := by
  refine ⟨?_, ?_, ?_, ?_, ?_⟩
  · intro userId ws we wn yr stats wsd q hq
    rcases upserted_payments_shape db userId ws we wn yr stats wsd with hrep | happ
    · rw [hrep] at hq
      rcases mem_replaceFirst _ _ _ q hq with hqe | hqm
      · rw [hqe]; exact upserted_inv db userId ws we wn yr stats wsd
      · exact hinv q hqm
    · rw [happ] at hq
      rcases List.mem_append.mp hq with hqm | hqe
      · exact hinv q hqm
      · rw [List.mem_singleton.mp hqe]
        exact upserted_inv db userId ws we wn yr stats wsd
  · intro userId t actor db' pr h q hq
    rcases hu : findUser db userId with _ | user
    · simp only [markWeekAsPaid, hu] at h
      exact absurd h (by simp)
    · rcases hf : db.payments.find?
          (regularKey userId (getWeekBoundaries t user.weekStartDay).weekStart) with _ | p0
      · simp only [markWeekAsPaid, hu, hf, Except.ok.injEq, Prod.mk.injEq] at h
        obtain ⟨hdb', hpr⟩ := h
        subst hdb'
        have hq' : q ∈ db.payments ∨ q = pr := by
          rw [← hpr]
          simpa using hq
        rcases hq' with hqm | hqe
        · exact hinv q hqm
        · rw [hqe, ← hpr]
          exact totalEarningsInv_saveHook _
      · simp only [markWeekAsPaid, hu, hf, Except.ok.injEq, Prod.mk.injEq] at h
        obtain ⟨hdb', hpr⟩ := h
        subst hdb'
        have hq' : q = pr ∨ q ∈ db.payments := by
          rw [← hpr]
          exact mem_replaceFirst _ _ _ q (by simpa using hq)
        rcases hq' with hqe | hqm
        · rw [hqe, ← hpr]
          exact totalEarningsInv_saveHook _
        · exact hinv q hqm
  · intro pid actor db' pr h q hq
    rcases hp : findPaymentById db pid with _ | p
    · simp only [approvePayment, hp] at h
      exact absurd h (by simp)
    · by_cases h1 : p.status = PayStatus.paid
      · simp [approvePayment, hp, h1] at h
      · by_cases h2 : p.status = PayStatus.approved
        · simp [approvePayment, hp, h1, h2] at h
        · simp only [approvePayment, hp, h1, h2, if_false, Except.ok.injEq,
            Prod.mk.injEq] at h
          obtain ⟨hdb', hpr⟩ := h
          subst hdb'
          have hq' : q = pr ∨ q ∈ db.payments := by
            rw [← hpr]
            exact mem_replaceFirst _ _ _ q (by simpa using hq)
          rcases hq' with hqe | hqm
          · rw [hqe, ← hpr]
            exact totalEarningsInv_saveHook _
          · exact hinv q hqm
  · intro pid reason actor db' pr h q hq
    rcases hp : findPaymentById db pid with _ | p
    · simp only [denyPayment, hp] at h
      exact absurd h (by simp)
    · by_cases h1 : p.status = PayStatus.paid
      · simp [denyPayment, hp, h1] at h
      · simp only [denyPayment, hp, h1, if_false, Except.ok.injEq, Prod.mk.injEq] at h
        obtain ⟨hdb', hpr⟩ := h
        subst hdb'
        have hq' : q = pr ∨ q ∈ db.payments := by
          rw [← hpr]
          exact mem_replaceFirst _ _ _ q (by simpa using hq)
        rcases hq' with hqe | hqm
        · rw [hqe, ← hpr]
          exact totalEarningsInv_saveHook _
        · exact hinv q hqm
  · intro pid patch db' pr h q hq
    rcases hp : findPaymentById db pid with _ | p
    · simp only [updateWeeklyPayment, hp] at h
      exact absurd h (by simp)
    · simp only [updateWeeklyPayment, hp, Except.ok.injEq, Prod.mk.injEq] at h
      obtain ⟨hdb', hpr⟩ := h
      subst hdb'
      have hq' : q = pr ∨ q ∈ db.payments := by
        rw [← hpr]
        exact mem_replaceFirst _ _ _ q (by simpa using hq)
      rcases hq' with hqe | hqm
      · rw [hqe, ← hpr]
        exact totalEarningsInv_saveHook _
      · exact hinv q hqm

/-- Concrete store for the C4 witness. -/
def invDB : DB :=
  { users := [⟨1, 2, 40, "prior"⟩], bonuses := [], entries := [], benchmark := none,
    envRate := 2000, now := 90, nextId := 41,
    payments := [ { freshPayment 8 with
                    user := 1, weekStart := 0, baseEarnings := 100,
                    bonusEarnings := 10, extraBonus := 5,
                    totalEarnings := 115 } ] }

/-- C4 witness: the invariant theorem applied on the concrete store, at the
record produced by the upsert. -/
theorem totalEarnings_invariant_witness :
    totalEarningsInv (createOrUpdateWeeklyPayment invDB 1 0 604799999 1 1970
        { totalHours := 8, avgQuality := 90, entryCount := 1, avgTime := 8 } 2).2 := by
  have h := totalEarnings_invariant invDB (by
    intro q hq
    simp only [invDB, List.mem_singleton] at hq
    rw [hq]
    norm_num [totalEarningsInv, freshPayment,
      show (PaymentType.regular = PaymentType.bonus) = False from by decide])
  exact h.1 1 0 604799999 1 1970
    { totalHours := 8, avgQuality := 90, entryCount := 1, avgTime := 8 } 2
    (createOrUpdateWeeklyPayment invDB 1 0 604799999 1 1970
      { totalHours := 8, avgQuality := 90, entryCount := 1, avgTime := 8 } 2).2
    (by norm_num [createOrUpdateWeeklyPayment, invDB, benchmarkBreakdown, mergeUserBonus,
      resolveHourlyRate, replaceFirst, regularKey, freshPayment, round2,
      List.find?, List.filter])

/-! ### C1 — markWeekAsPaid bonus merge -/

lemma map_sum_pos_ne_nil {l : List BonusRec} (h : 0 < (l.map (·.amount)).sum) : l ≠ [] := by
  intro hnil
  rw [hnil] at h
  simp at h

/-- Concrete store refuting the original C1 wording: the week's regular
payment already carries `extraBonus = 5` while a fresh pending bonus of 3
exists; the pay action overwrites 5 with 3 instead of adding. -/
def c1db : DB :=
  { users := [⟨1, 2, 3, "r"⟩],
    bonuses := [⟨5, 1, 3, "summer bonus", .pending, none, none, 9⟩],
    payments := [ { freshPayment 10 with
                    user := 1, weekStart := -172800000, extraBonus := 5,
                    baseEarnings := 7, totalEarnings := 12 } ],
    entries := [], benchmark := none, envRate := 2000, now := 77, nextId := 11 }

/-- C1 counterexample: pending sum B = 3, the targeted payment's prior
`extraBonus` is 5, and after `markWeekAsPaid` the payment's `extraBonus` is 3,
not 5 + 3: the field is overwritten, not increased by B. -/
theorem markWeekAsPaid_claim_counterexample :
    pendingBonusSum c1db 1 = 3
    ∧ (findPaymentById c1db 10).map PaymentRec.extraBonus = some 5
    ∧ (markWeekAsPaid c1db 1 0 9).toOption.map (fun r => r.2.extraBonus) = some 3
    ∧ (3 : ℚ) ≠ 5 + 3 := by
  refine ⟨?_, ?_, ?_, by norm_num⟩ <;>
    norm_num [c1db, pendingBonusSum, pendingBonuses, findPaymentById, markWeekAsPaid,
      findUser, regularKey, saveHook, joinReasons, getWeekBoundaries, truncToMidnight,
      jsGetUTCDay, msPerDay, freshPayment, markBonusesMerged, clearUserBonus,
      Except.toOption, List.filter, List.find?,
      show (PaymentType.regular = PaymentType.bonus) = False from by decide]

/-- C1 (amended): for every user whose pending bonuses sum to B > 0,
`markWeekAsPaid` succeeds and sets the targeted regular payment's `extraBonus`
to exactly B (overwriting, not incrementing, any prior `extraBonus` on the
record), marks every drained Bonus record `status='merged'` with
`mergedIntoPayment` = that payment's id and a `mergedAt` timestamp, and leaves
the user's pending-bonus sum at 0. -/
theorem markWeekAsPaid_merge (db : DB) (userId : ℕ) (t : ℤ) (actor : ℕ) (user : UserRec)
    (hu : findUser db userId = some user)
    (hB : 0 < pendingBonusSum db userId) :
    ∃ db' p, markWeekAsPaid db userId t actor = .ok (db', p)
      ∧ p.extraBonus = pendingBonusSum db userId
      ∧ (∀ b ∈ db.bonuses, b.user = userId → b.status = .pending →
          ∃ b' ∈ db'.bonuses, b'.id = b.id ∧ b'.status = .merged
            ∧ b'.mergedIntoPayment = some p.id ∧ b'.mergedAt = some db.now)
      ∧ pendingBonusSum db' userId = 0 := by
  have hBsum : 0 < ((pendingBonuses db userId).map (·.amount)).sum := hB
  have hne : pendingBonuses db userId ≠ [] := map_sum_pos_ne_nil hBsum
  have hlen : 0 < (pendingBonuses db userId).length := List.length_pos.mpr hne
  rcases hfound : db.payments.find?
      (regularKey userId (getWeekBoundaries t user.weekStartDay).weekStart) with _ | p0
  · simp only [markWeekAsPaid, hu, hfound, hBsum, if_true, hlen]
    refine ⟨_, _, rfl, ?_, ?_, ?_⟩
    · simp [saveHook, pendingBonusSum]
    · intro b hb hbu hbs
      have himg := merged_image_exists db.bonuses userId db.nextId db.now b hb hbu hbs
      simpa [saveHook, freshPayment, pendingBonuses] using himg
    · simp only [pendingBonusSum, pendingBonuses]
      rw [pending_filter_after_merge]
      simp
  · simp only [markWeekAsPaid, hu, hfound, hBsum, if_true, hlen]
    refine ⟨_, _, rfl, ?_, ?_, ?_⟩
    · simp [saveHook, pendingBonusSum]
    · intro b hb hbu hbs
      have himg := merged_image_exists db.bonuses userId p0.id db.now b hb hbu hbs
      simpa [saveHook, pendingBonuses] using himg
    · simp only [pendingBonusSum, pendingBonuses]
      rw [pending_filter_after_merge]
      simp

/-- C1 witness: the amended theorem applied on the concrete store `c1db`. -/
theorem markWeekAsPaid_merge_witness :
    ∃ db' p, markWeekAsPaid c1db 1 0 9 = .ok (db', p)
      ∧ p.extraBonus = pendingBonusSum c1db 1
      ∧ (∀ b ∈ c1db.bonuses, b.user = 1 → b.status = .pending →
          ∃ b' ∈ db'.bonuses, b'.id = b.id ∧ b'.status = .merged
            ∧ b'.mergedIntoPayment = some p.id ∧ b'.mergedAt = some c1db.now)
      ∧ pendingBonusSum db' 1 = 0 :=
  markWeekAsPaid_merge c1db 1 0 9 ⟨1, 2, 3, "r"⟩ rfl
    (by norm_num [pendingBonusSum, pendingBonuses, c1db, List.filter])

/-! ### C9 — Case-B bonus queuing performs no mutation -/

/-- C9 (confirmed): when a user has pending bonuses but every regular payment
record is already paid, `markBonusPaid` returns the queued (`pending: true`)
outcome with the store completely unchanged: no Bonus record is touched and no
WeeklyPayment is created or modified. -/
theorem markBonusPaid_queued (db : DB) (userId actor : ℕ) (user : UserRec)
    (hu : findUser db userId = some user)
    (hpend : pendingBonuses db userId ≠ [])
    (hpaid : ∀ p ∈ db.payments, p.user = userId → p.paymentType = .regular → p.paid = true) :
    markBonusPaid db userId actor = .ok (db, .queued (pendingBonusSum db userId)) := by
  have hlen : ¬ ((pendingBonuses db userId).length = 0) := by
    simpa [List.length_eq_zero] using hpend
  have hfilter : db.payments.filter (fun p =>
      decide (p.user = userId ∧ p.paid ≠ true ∧ p.paymentType = PaymentType.regular)) = [] := by
    apply List.filter_eq_nil_iff.mpr
    intro p hp
    simp only [decide_eq_true_eq]
    rintro ⟨h1, h2, h3⟩
    exact h2 (hpaid p hp h1 h3)
  simp only [markBonusPaid, hu, hlen, if_false, hfilter, latestByWeekStart, List.foldl_nil,
    pendingBonusSum]

/-- Concrete store for the C9 witness: one pending bonus, one already-paid
regular week. -/
def c9db : DB :=
  { users := [⟨1, 2, 0, ""⟩],
    bonuses := [⟨6, 1, 250, "milestone", .pending, none, none, 9⟩],
    payments := [ { freshPayment 12 with
                    user := 1, weekStart := 0, status := .paid, paid := true } ],
    entries := [], benchmark := none, envRate := 2000, now := 88, nextId := 13 }

/-- C9 witness: the theorem applied on the concrete store. -/
theorem markBonusPaid_queued_witness :
    markBonusPaid c9db 1 9 = .ok (c9db, .queued (pendingBonusSum c9db 1)) :=
  markBonusPaid_queued c9db 1 9 ⟨1, 2, 0, ""⟩ rfl
    (by simp [pendingBonuses, c9db, List.filter])
    (by decide)

/-! ### C10 — a single bonus grant counted twice -/

/-- Fresh store for the C10 scenario: one user, no bonuses or payments yet. -/
def c10db : DB :=
  { users := [⟨1, 2, 0, ""⟩], bonuses := [], payments := [], entries := [],
    benchmark := none, envRate := 2000, now := 99, nextId := 5 }

/-- C10 (confirmed): granting a bonus A via `addExtraBonus` records it both as
a pending Bonus document and on `user.extraBonus`; a subsequent
`createOrUpdateWeeklyPayment` folds the user-scalar copy into the week's
payment (`extraBonus = A`) and zeroes the user field while the Bonus document
stays pending; a later `markBonusPaid` (Case A) then adds the still-pending
document's amount on top, leaving the payment's `extraBonus` at `2 * A`. -/
theorem bonus_double_count (A : ℚ) (hA : 0 < A) :
    ∃ db1 b, addExtraBonus c10db 1 A "performance" 9 = .ok (db1, b)
      ∧ b.status = .pending
      ∧ (createOrUpdateWeeklyPayment db1 1 0 604799999 1 1970
          ⟨0, 0, 0, 0⟩ 2).2.extraBonus = A
      ∧ (∃ b2 ∈ (createOrUpdateWeeklyPayment db1 1 0 604799999 1 1970
            ⟨0, 0, 0, 0⟩ 2).1.bonuses, b2.id = b.id ∧ b2.status = .pending)
      ∧ ∃ db3 pOut,
          markBonusPaid (createOrUpdateWeeklyPayment db1 1 0 604799999 1 1970
              ⟨0, 0, 0, 0⟩ 2).1 1 9 = .ok (db3, .merged pOut)
          ∧ pOut.id = (createOrUpdateWeeklyPayment db1 1 0 604799999 1 1970
              ⟨0, 0, 0, 0⟩ 2).2.id
          ∧ pOut.extraBonus = 2 * A := by
  have hA0 : ¬ (A ≤ 0) := not_le.mpr hA
  have h1 : addExtraBonus c10db 1 A "performance" 9 = .ok
      ({ c10db with
         bonuses := [{ id := 5, user := 1, amount := A, reason := "performance",
                       status := .pending, mergedIntoPayment := none, mergedAt := none,
                       createdBy := 9 }],
         users := [{ id := 1, weekStartDay := 2, extraBonus := A,
                     extraBonusReason := "performance" }],
         nextId := 6 },
       { id := 5, user := 1, amount := A, reason := "performance", status := .pending,
         mergedIntoPayment := none, mergedAt := none, createdBy := 9 }) := by
    simp [addExtraBonus, c10db, findUser, replaceFirst, hA0]
  refine ⟨_, _, h1, rfl, ?_, ?_, ?_⟩
  · simp [createOrUpdateWeeklyPayment, c10db, benchmarkBreakdown, mergeUserBonus,
      resolveHourlyRate, replaceFirst, regularKey, freshPayment, round2, hA]
  · simp [createOrUpdateWeeklyPayment, c10db, benchmarkBreakdown, mergeUserBonus,
      resolveHourlyRate, replaceFirst, regularKey, freshPayment, round2, hA]
  · have h2 : (createOrUpdateWeeklyPayment
        ({ c10db with
           bonuses := [{ id := 5, user := 1, amount := A, reason := "performance",
                         status := .pending, mergedIntoPayment := none, mergedAt := none,
                         createdBy := 9 }],
           users := [{ id := 1, weekStartDay := 2, extraBonus := A,
                       extraBonusReason := "performance" }],
           nextId := 6 }) 1 0 604799999 1 1970 ⟨0, 0, 0, 0⟩ 2) =
      ({ c10db with
         bonuses := [{ id := 5, user := 1, amount := A, reason := "performance",
                       status := .pending, mergedIntoPayment := none, mergedAt := none,
                       createdBy := 9 }],
         users := [{ id := 1, weekStartDay := 2, extraBonus := 0,
                     extraBonusReason := "" }],
         payments := [{ freshPayment 6 with
                        user := 1, weekStart := 0, weekEnd := 604799999,
                        weekNumber := 1, year := 1970, weekStartDay := 2,
                        extraBonus := A, extraBonusReason := "performance",
                        totalEarnings := A }],
         nextId := 7 },
       { freshPayment 6 with
         user := 1, weekStart := 0, weekEnd := 604799999,
         weekNumber := 1, year := 1970, weekStartDay := 2,
         extraBonus := A, extraBonusReason := "performance",
         totalEarnings := A }) := by
      simp [createOrUpdateWeeklyPayment, c10db, benchmarkBreakdown, mergeUserBonus,
        resolveHourlyRate, replaceFirst, regularKey, freshPayment, round2, hA,
        Prod.ext_iff, DB.mk.injEq, PaymentRec.mk.injEq]
    rw [h2]
    simp [markBonusPaid, c10db, findUser, pendingBonuses, pendingBonusSum,
      latestByWeekStart, saveHook, joinReasons, replaceFirst, markBonusesMerged,
      clearUserBonus, freshPayment, List.filter, List.find?, two_mul,
      show (PaymentType.regular = PaymentType.bonus) = False from by decide]
    exact ⟨_, _, ⟨rfl, rfl⟩, rfl, rfl⟩

/-- C10 witness: the scenario instantiated at A = 100. -/
theorem bonus_double_count_witness :
    ∃ db1 b, addExtraBonus c10db 1 100 "performance" 9 = .ok (db1, b)
      ∧ b.status = .pending
      ∧ (createOrUpdateWeeklyPayment db1 1 0 604799999 1 1970
          ⟨0, 0, 0, 0⟩ 2).2.extraBonus = 100
      ∧ (∃ b2 ∈ (createOrUpdateWeeklyPayment db1 1 0 604799999 1 1970
            ⟨0, 0, 0, 0⟩ 2).1.bonuses, b2.id = b.id ∧ b2.status = .pending)
      ∧ ∃ db3 pOut,
          markBonusPaid (createOrUpdateWeeklyPayment db1 1 0 604799999 1 1970
              ⟨0, 0, 0, 0⟩ 2).1 1 9 = .ok (db3, .merged pOut)
          ∧ pOut.id = (createOrUpdateWeeklyPayment db1 1 0 604799999 1 1970
              ⟨0, 0, 0, 0⟩ 2).2.id
          ∧ pOut.extraBonus = 2 * 100 :=
  bonus_double_count 100 (by norm_num)

/-! ### C2 — calling markWeekAsPaid twice does not double-pay -/

lemma findUser_clear (us : List UserRec) (u : ℕ) (user : UserRec)
    (h : us.find? (fun x => decide (x.id = u)) = some user) :
    (clearUserBonus us u).find? (fun x => decide (x.id = u)) =
      some { user with extraBonus := 0, extraBonusReason := "" } := by
  induction us with
  | nil => simp at h
  | cons x xs ih =>
    by_cases hx : x.id = u
    · have hxu : x = user := by
        have hpos : (x :: xs).find? (fun x => decide (x.id = u)) = some x :=
          List.find?_cons_of_pos _ (by simp [hx])
        rw [hpos] at h
        exact Option.some.inj h
      subst hxu
      have hrw : clearUserBonus (x :: xs) u =
          { x with extraBonus := 0, extraBonusReason := "" } :: clearUserBonus xs u := by
        simp [clearUserBonus, hx]
      rw [hrw]
      exact List.find?_cons_of_pos _ (by simp [hx])
    · have h2 : (x :: xs).find? (fun x => decide (x.id = u)) =
          xs.find? (fun x => decide (x.id = u)) :=
        List.find?_cons_of_neg _ (by simp [hx])
      rw [h2] at h
      have hrw : clearUserBonus (x :: xs) u = x :: clearUserBonus xs u := by
        simp [clearUserBonus, hx]
      have h3 : (x :: clearUserBonus xs u).find? (fun x => decide (x.id = u)) =
          (clearUserBonus xs u).find? (fun x => decide (x.id = u)) :=
        List.find?_cons_of_neg _ (by simp [hx])
      rw [hrw, h3]
      exact ih h

/-- What one successful `markWeekAsPaid` call guarantees about the resulting
state: the week's payment record is retrievable under the upsert key, no
pending bonus of the user remains, the user still resolves (with the same
configured week-start day), time does not advance, and the saved record is a
regular record satisfying the pre-save-hook equation. -/
lemma markWeekAsPaid_ok_spec (db : DB) (userId : ℕ) (t : ℤ) (actor : ℕ) (user : UserRec)
    (hu : findUser db userId = some user)
    (hnd : (db.payments.map PaymentRec.id).Nodup) :
    ∃ db1 p1, markWeekAsPaid db userId t actor = .ok (db1, p1)
      ∧ db1.payments.find?
          (regularKey userId (getWeekBoundaries t user.weekStartDay).weekStart) = some p1
      ∧ pendingBonuses db1 userId = []
      ∧ (∃ user1, findUser db1 userId = some user1
          ∧ user1.weekStartDay = user.weekStartDay)
      ∧ db1.now = db.now
      ∧ p1.paymentType = PaymentType.regular
      ∧ p1.totalEarnings = p1.baseEarnings + p1.bonusEarnings + p1.extraBonus := by
  rcases hfound : db.payments.find?
      (regularKey userId (getWeekBoundaries t user.weekStartDay).weekStart) with _ | p0
  · by_cases hlen : 0 < (pendingBonuses db userId).length
    · simp only [markWeekAsPaid, hu, hfound, hlen, if_true]
      refine ⟨_, _, rfl, ?_, ?_, ?_, rfl, ?_, ?_⟩
      · apply find?_append_of_none _ _ _ hfound
        simp [regularKey, saveHook]
      · simp only [pendingBonuses]
        rw [pending_filter_after_merge]
      · refine ⟨{ user with extraBonus := 0, extraBonusReason := "" }, ?_, rfl⟩
        simp only [findUser] at hu ⊢
        exact findUser_clear db.users userId user hu
      · simp [saveHook]
      · simp [saveHook, show (PaymentType.regular = PaymentType.bonus) = False from by decide]
    · have hlen0 : (pendingBonuses db userId).length = 0 := by omega
      have hpnil : pendingBonuses db userId = [] := List.length_eq_zero.mp hlen0
      simp only [markWeekAsPaid, hu, hfound, hlen, if_false]
      refine ⟨_, _, rfl, ?_, ?_, ?_, rfl, ?_, ?_⟩
      · apply find?_append_of_none _ _ _ hfound
        simp [regularKey, saveHook]
      · exact hpnil
      · exact ⟨user, hu, rfl⟩
      · simp [saveHook]
      · simp [saveHook, show (PaymentType.regular = PaymentType.bonus) = False from by decide]
  · have hkey := of_decide_eq_true (by
      have := List.find?_some hfound
      simpa [regularKey] using this)
    obtain ⟨hp0u, hp0w, hp0t⟩ : p0.user = userId ∧
        p0.weekStart = (getWeekBoundaries t user.weekStartDay).weekStart ∧
        p0.paymentType = PaymentType.regular := by
      have := List.find?_some hfound
      simp only [regularKey, decide_eq_true_eq] at this
      exact this
    by_cases hc : 0 < ((pendingBonuses db userId).map (·.amount)).sum
    · have hne : pendingBonuses db userId ≠ [] := map_sum_pos_ne_nil hc
      have hlen : 0 < (pendingBonuses db userId).length := List.length_pos.mpr hne
      simp only [markWeekAsPaid, hu, hfound, hc, if_true, hlen]
      refine ⟨_, _, rfl, ?_, ?_, ?_, rfl, ?_, ?_⟩
      · apply find?_replaceFirst_by_id db.payments _ p0 _ hnd hfound
        · simp [saveHook]
        · simp [regularKey, saveHook, hp0u, hp0w, hp0t]
      · simp only [pendingBonuses]
        rw [pending_filter_after_merge]
      · refine ⟨{ user with extraBonus := 0, extraBonusReason := "" }, ?_, rfl⟩
        simp only [findUser] at hu ⊢
        exact findUser_clear db.users userId user hu
      · simp [saveHook, hp0t]
      · simp [saveHook, hp0t,
          show (PaymentType.regular = PaymentType.bonus) = False from by decide]
    · by_cases hlen : 0 < (pendingBonuses db userId).length
      · simp only [markWeekAsPaid, hu, hfound, hc, if_false, hlen, if_true]
        refine ⟨_, _, rfl, ?_, ?_, ?_, rfl, ?_, ?_⟩
        · apply find?_replaceFirst_by_id db.payments _ p0 _ hnd hfound
          · simp [saveHook]
          · simp [regularKey, saveHook, hp0u, hp0w, hp0t]
        · simp only [pendingBonuses]
          rw [pending_filter_after_merge]
        · refine ⟨{ user with extraBonus := 0, extraBonusReason := "" }, ?_, rfl⟩
          simp only [findUser] at hu ⊢
          exact findUser_clear db.users userId user hu
        · simp [saveHook, hp0t]
        · simp [saveHook, hp0t,
            show (PaymentType.regular = PaymentType.bonus) = False from by decide]
      · have hlen0 : (pendingBonuses db userId).length = 0 := by omega
        have hpnil : pendingBonuses db userId = [] := List.length_eq_zero.mp hlen0
        simp only [markWeekAsPaid, hu, hfound, hc, if_false, hlen]
        refine ⟨_, _, rfl, ?_, ?_, ?_, rfl, ?_, ?_⟩
        · apply find?_replaceFirst_by_id db.payments _ p0 _ hnd hfound
          · simp [saveHook]
          · simp [regularKey, saveHook, hp0u, hp0w, hp0t]
        · exact hpnil
        · exact ⟨user, hu, rfl⟩
        · simp [saveHook, hp0t]
        · simp [saveHook, hp0t,
            show (PaymentType.regular = PaymentType.bonus) = False from by decide]

/-- C2 (confirmed): calling `markWeekAsPaid` twice in a row for the same week
merges only the bonuses pending at each call; after the first call the pending
sum is 0, so the second call contributes nothing: the payment's `extraBonus`
and `totalEarnings` are unchanged by the second call. -/
theorem markWeekAsPaid_no_double_pay (db : DB) (userId : ℕ) (t : ℤ) (actor : ℕ)
    (user : UserRec) (hu : findUser db userId = some user)
    (hnd : (db.payments.map PaymentRec.id).Nodup) :
    ∃ db1 p1 db2 p2,
      markWeekAsPaid db userId t actor = .ok (db1, p1)
      ∧ markWeekAsPaid db1 userId t actor = .ok (db2, p2)
      ∧ pendingBonusSum db1 userId = 0
      ∧ p2.extraBonus = p1.extraBonus
      ∧ p2.totalEarnings = p1.totalEarnings
      ∧ p2.id = p1.id := by
  obtain ⟨db1, p1, h1, hfind1, hpend1, ⟨user1, hu1, hwsd⟩, hnow, hreg, hTE⟩ :=
    markWeekAsPaid_ok_spec db userId t actor user hu hnd
  have h2 : markWeekAsPaid db1 userId t actor = .ok
      ({ db1 with
         payments :=
           replaceFirst db1.payments
             (fun q => decide (q.id = (saveHook { p1 with
                status := PayStatus.paid, paid := true,
                paidDate := some db1.now, paidBy := some actor }).id))
             (saveHook { p1 with
                status := PayStatus.paid, paid := true,
                paidDate := some db1.now, paidBy := some actor }) },
       saveHook { p1 with
         status := PayStatus.paid, paid := true,
         paidDate := some db1.now, paidBy := some actor }) := by
    simp only [markWeekAsPaid, hu1, hwsd, hpend1, hfind1, List.map_nil, List.sum_nil,
      lt_self_iff_false, if_false, List.length_nil]
  refine ⟨db1, p1, _, _, h1, h2, ?_, ?_, ?_, ?_⟩
  · simp [pendingBonusSum, hpend1]
  · simp [saveHook]
  · simp only [saveHook]
    simp [hreg, show (PaymentType.regular = PaymentType.bonus) = False from by decide]
    exact hTE.symm
  · simp [saveHook]

/-- Store for the C2 witness: one pending bonus, one existing unpaid week. -/
def c2db : DB :=
  { users := [⟨1, 2, 7, "x"⟩],
    bonuses := [⟨4, 1, 7, "overtime", .pending, none, none, 9⟩],
    payments := [ { freshPayment 15 with
                    user := 1, weekStart := -172800000, baseEarnings := 30,
                    bonusEarnings := 0, totalEarnings := 30 } ],
    entries := [], benchmark := none, envRate := 2000, now := 70, nextId := 16 }

/-- C2 witness: the no-double-pay theorem applied on the concrete store. -/
theorem markWeekAsPaid_no_double_pay_witness :
    ∃ db1 p1 db2 p2,
      markWeekAsPaid c2db 1 0 9 = .ok (db1, p1)
      ∧ markWeekAsPaid db1 1 0 9 = .ok (db2, p2)
      ∧ pendingBonusSum db1 1 = 0
      ∧ p2.extraBonus = p1.extraBonus
      ∧ p2.totalEarnings = p1.totalEarnings
      ∧ p2.id = p1.id :=
  markWeekAsPaid_no_double_pay c2db 1 0 9 ⟨1, 2, 7, "x"⟩ rfl (by decide)

end AirHub
